import Mathlib

/-!
Shallow embedding of `src/scripts/generate_test_data.py`
(`device_movement_intelligence_system`).

Modelling conventions, used throughout:

* Python's global `random` state is made explicit as a value of type `Gen`:
  an infinite stream of raw natural-number draws together with the index of
  the next draw.  Every primitive of the `random` module consumes draws from
  the stream, exactly in the order the Python source consumes them.
* Machine floats are modelled as rationals (`ℚ`); `round(x, 2)` is modelled
  by `round2` (the half-to-even tie rule of Python's `round` differs from
  `round` only on exact ties, which none of the proved properties touch).
* Times are counted in whole minutes (every offset in the source is a whole
  number of minutes); `datetime.now()` becomes an explicit `now : Int`
  argument.  The `timestamp` field of a movement dict holds
  `datetime.isoformat(...)`; the record model keeps the underlying minute
  count and `isoformat` renders it, so the sort key `x['timestamp']` is
  modelled as `isoformat m.timestamp`.
* Fallible operations (dictionary lookup, `random.choice` on an empty
  sequence, `random.sample` with too large a draw) return `Option`.
-/

namespace DeviceMovement

/-- Explicit model of the `random` module's global state: `f` is the stream of
raw draws, `idx` the position of the next draw. -/
structure Gen where
  f : Nat → Nat
  idx : Nat

/-- Consume one raw draw from the stream. -/
def Gen.next (g : Gen) : Nat × Gen := (g.f g.idx, ⟨g.f, g.idx + 1⟩)

/-- `random.randint(a, b)`: one integer draw from the inclusive range
`[a, b]`. -/
def randint (a b : Nat) (g : Gen) : Nat × Gen :=
  (a + g.next.1 % (b + 1 - a), g.next.2)

/-- `random.choice(xs)`: one element of `xs`; `none` models the `IndexError`
raised on an empty sequence. -/
def choice {α : Type} (xs : List α) (g : Gen) : Option (α × Gen) :=
  (xs[g.next.1 % xs.length]?).map (fun a => (a, g.next.2))

/-- `random.sample(xs, k)`: `k` draws without replacement (each draw removes
the chosen position); `none` models the error raised when `k > len(xs)`. -/
def sample {α : Type} : List α → Nat → Gen → Option (List α × Gen)
  | _, 0, g => some ([], g)
  | xs, k + 1, g =>
    match xs[g.next.1 % xs.length]? with
    | none => none
    | some a =>
      (sample (xs.eraseIdx (g.next.1 % xs.length)) k g.next.2).map
        (fun q => (a :: q.1, q.2))

/-- `random.uniform(a, b)`: `a + (b - a) * u` for a draw `u ∈ [0, 1)`
(modelled with 1000 equidistant values). -/
def uniform (a b : ℚ) (g : Gen) : ℚ × Gen :=
  (a + (b - a) * ((g.next.1 % 1000 : ℕ) : ℚ) / 1000, g.next.2)

/-- Python's `round(x, 2)`. -/
def round2 (q : ℚ) : ℚ := ((round (q * 100) : ℤ) : ℚ) / 100

theorem randint_bounds (a b : Nat) (g : Gen) (h : a ≤ b) :
    a ≤ (randint a b g).1 ∧ (randint a b g).1 ≤ b := by
  have hm : (g.next.1) % (b + 1 - a) < b + 1 - a :=
    Nat.mod_lt _ (by omega)
  unfold randint
  omega

theorem choice_mem {α : Type} {xs : List α} {g : Gen} {a : α} {g' : Gen}
    (h : choice xs g = some (a, g')) : a ∈ xs := by
  unfold choice at h
  cases hx : xs[g.next.1 % xs.length]? with
  | none => simp [hx] at h
  | some b =>
    simp only [hx, Option.map_some', Option.some.injEq, Prod.mk.injEq] at h
    exact h.1 ▸ List.getElem?_mem hx

theorem choice_some {α : Type} (xs : List α) (g : Gen) (hne : xs ≠ []) :
    ∃ a g', choice xs g = some (a, g') ∧ a ∈ xs := by
  have hlen : 0 < xs.length := List.length_pos.mpr hne
  have hlt : g.next.1 % xs.length < xs.length := Nat.mod_lt _ hlen
  refine ⟨xs[g.next.1 % xs.length], g.next.2, ?_, List.getElem_mem _⟩
  unfold choice
  simp [List.getElem?_eq_getElem hlt]

theorem sample_spec {α : Type} :
    ∀ {xs : List α} {k : Nat} {g : Gen} {ys : List α} {g' : Gen},
      sample xs k g = some (ys, g') → ys.length = k ∧ ∀ a ∈ ys, a ∈ xs := by
  intro xs k
  induction k generalizing xs with
  | zero =>
    intro g ys g' h
    unfold sample at h
    cases h
    simp
  | succ k ih =>
    intro g ys g' h
    unfold sample at h
    cases hx : xs[g.next.1 % xs.length]? with
    | none => simp [hx] at h
    | some a =>
      simp only [hx] at h
      cases hs : sample (xs.eraseIdx (g.next.1 % xs.length)) k g.next.2 with
      | none => simp [hs] at h
      | some q =>
        simp only [hs, Option.map_some', Option.some.injEq, Prod.mk.injEq] at h
        obtain ⟨hys, -⟩ := h
        have hq : sample (xs.eraseIdx (g.next.1 % xs.length)) k g.next.2 =
            some (q.1, q.2) := by rw [hs]
        obtain ⟨hlen, hmem⟩ := ih hq
        subst hys
        constructor
        · simp [hlen]
        · intro b hb
          rcases List.mem_cons.mp hb with hb | hb
          · exact hb ▸ List.getElem?_mem hx
          · exact List.mem_of_mem_eraseIdx (hmem b hb)

theorem sample_some {α : Type} :
    ∀ (xs : List α) (k : Nat) (g : Gen), k ≤ xs.length →
      ∃ ys g', sample xs k g = some (ys, g') := by
  intro xs k
  induction k generalizing xs with
  | zero => intro g _; exact ⟨[], g, rfl⟩
  | succ k ih =>
    intro g hk
    have hlen : 0 < xs.length := by omega
    have hlt : g.next.1 % xs.length < xs.length := Nat.mod_lt _ hlen
    have hk' : k ≤ (xs.eraseIdx (g.next.1 % xs.length)).length := by
      rw [List.length_eraseIdx_of_lt hlt]; omega
    obtain ⟨ys, g', hs⟩ := ih (xs.eraseIdx (g.next.1 % xs.length)) g.next.2 hk'
    refine ⟨xs[g.next.1 % xs.length] :: ys, g', ?_⟩
    unfold sample
    simp [List.getElem?_eq_getElem hlt, hs]

theorem uniform_bounds (a b : ℚ) (g : Gen) (h : a ≤ b) :
    a ≤ (uniform a b g).1 ∧ (uniform a b g).1 ≤ b := by
  unfold uniform
  have h0 : (0 : ℚ) ≤ ((g.next.1 % 1000 : ℕ) : ℚ) := Nat.cast_nonneg _
  have h1 : ((g.next.1 % 1000 : ℕ) : ℚ) ≤ 1000 := by
    have : g.next.1 % 1000 ≤ 1000 := Nat.le_of_lt (Nat.mod_lt _ (by omega))
    exact_mod_cast this
  constructor
  · nlinarith
  · nlinarith

theorem round2_bounds (lo hi : ℤ) {q : ℚ}
    (h1 : (lo : ℚ) / 100 ≤ q) (h2 : q ≤ (hi : ℚ) / 100) :
    (lo : ℚ) / 100 ≤ round2 q ∧ round2 q ≤ (hi : ℚ) / 100 := by
  have hlo : (lo : ℚ) ≤ q * 100 := by linarith
  have hhi : q * 100 ≤ (hi : ℚ) := by linarith
  have e1 : round ((lo : ℚ)) = lo := round_intCast lo
  have e2 : round ((hi : ℚ)) = hi := round_intCast hi
  have m1 : round ((lo : ℚ)) ≤ round (q * 100) := by
    rw [round_eq, round_eq]
    exact Int.floor_mono (by linarith)
  have m2 : round (q * 100) ≤ round ((hi : ℚ)) := by
    rw [round_eq, round_eq]
    exact Int.floor_mono (by linarith)
  have h3 : lo ≤ round (q * 100) := e1 ▸ m1
  have h4 : round (q * 100) ≤ hi := e2 ▸ m2
  have c3 : (lo : ℚ) ≤ ((round (q * 100) : ℤ) : ℚ) := by exact_mod_cast h3
  have c4 : ((round (q * 100) : ℤ) : ℚ) ≤ (hi : ℚ) := by exact_mod_cast h4
  unfold round2
  exact ⟨by linarith, by linarith⟩

/-! ### Timestamp rendering

`datetime.isoformat()` produces `YYYY-MM-DDTHH:MM:SS[.ffffff]` with all
fields zero-padded.  Times in the model are whole minutes, all offsets of a
single `now` within one calendar month, so the rendered string is modelled
as a fixed month, a zero-padded day/hour/minute and a constant
seconds field. -/

/-- One decimal digit character (`'0'`–`'9'`). -/
def dchar (n : Nat) : Char := Char.ofNat (48 + n % 10)

/-- Zero-padded two-digit decimal field, as `datetime.isoformat` renders
day, hour and minute. -/
def pad2c (n : Nat) : List Char := [dchar (n / 10), dchar (n % 10)]

/-- Character content of `isoformat` at minute resolution: a fixed month,
then day (1-based), hour and minute derived from the minute count `m`. -/
def isoChars (m : Nat) : List Char :=
  "2025-06-".data ++ (pad2c (1 + m / 1440) ++
    ('T' :: (pad2c (m / 60 % 24) ++ (':' :: (pad2c (m % 60) ++ ":00".data)))))

/-- The `timestamp` field stored in a movement dict: `datetime.isoformat`
of the minute count `t`. -/
def isoformat (t : Int) : String := ⟨isoChars t.toNat⟩

theorem dchar_lt_dchar : ∀ a, a < 10 → ∀ b, b < 10 → a < b → dchar a < dchar b := by
  decide

theorem list_lex_append_left (p : List Char) {as bs : List Char}
    (h : List.Lex (· < ·) as bs) : List.Lex (· < ·) (p ++ as) (p ++ bs) := by
  induction p with
  | nil => exact h
  | cons c p ih => exact List.Lex.cons ih

theorem pad2c_lt_append {a b : Nat} (ha : a < 100) (hb : b < 100) (h : a < b)
    (r s : List Char) : List.Lex (· < ·) (pad2c a ++ r) (pad2c b ++ s) := by
  rcases Nat.lt_or_ge (a / 10) (b / 10) with h1 | h1
  · exact .rel (dchar_lt_dchar _ (by omega) _ (by omega) h1)
  · have he : a / 10 = b / 10 := by omega
    have h2 : a % 10 < b % 10 := by omega
    show List.Lex (· < ·) (dchar (a / 10) :: (dchar (a % 10) :: r))
      (dchar (b / 10) :: (dchar (b % 10) :: s))
    rw [he]
    exact .cons (.rel (dchar_lt_dchar _ (by omega) _ (by omega) h2))

theorem isoChars_lt {m1 m2 : Nat} (h : m1 < m2) (hb : m2 < 141120) :
    List.Lex (· < ·) (isoChars m1) (isoChars m2) := by
  unfold isoChars
  apply list_lex_append_left
  rcases Nat.lt_or_ge (m1 / 1440) (m2 / 1440) with hd | hd
  · exact pad2c_lt_append (by omega) (by omega) (by omega) _ _
  · have hde : m1 / 1440 = m2 / 1440 := by omega
    rw [hde]
    apply list_lex_append_left
    apply List.Lex.cons
    rcases Nat.lt_or_ge (m1 / 60 % 24) (m2 / 60 % 24) with hh | hh
    · exact pad2c_lt_append (by omega) (by omega) hh _ _
    · have hhe : m1 / 60 % 24 = m2 / 60 % 24 := by omega
      rw [hhe]
      apply list_lex_append_left
      apply List.Lex.cons
      exact pad2c_lt_append (by omega) (by omega) (by omega) _ _

theorem isoformat_lt {t1 t2 : Int} (h0 : 0 ≤ t1) (h : t1 < t2) (hb : t2 < 141120) :
    isoformat t1 < isoformat t2 := by
  apply String.lt_iff_toList_lt.mpr
  show List.Lex (· < ·) (isoChars t1.toNat) (isoChars t2.toNat)
  apply isoChars_lt <;> omega

theorem isoformat_le_iff {t1 t2 : Int} (h1 : 0 ≤ t1) (hb1 : t1 < 141120)
    (h2 : 0 ≤ t2) (hb2 : t2 < 141120) :
    isoformat t1 ≤ isoformat t2 ↔ t1 ≤ t2 := by
  constructor
  · intro hle
    by_contra hlt
    push_neg at hlt
    exact (isoformat_lt h2 hlt hb1).not_le hle
  · intro hle
    rcases eq_or_lt_of_le hle with he | hlt
    · rw [he]
    · exact le_of_lt (isoformat_lt h1 hlt hb2)

/-! ### Data model and `TestDataGenerator.__init__` -/

/-- One movement dict as produced by the generators.  `timestamp` keeps the
minute count; the dict's `timestamp` field is `isoformat timestamp` and the
`location` sub-dict is flattened to its only key `location_id`. -/
structure Movement where
  device_id : String
  owner_id : String
  timestamp : Int
  location_id : String
  movement_type : String
  confidence_level : ℚ
  deriving DecidableEq

/-- The literal `["walking", "vehicle"]` passed to `random.choice`. -/
def movementTypes : List String := ["walking", "vehicle"]

/-- Zero-padded decimal rendering `f"{n:0wd}"`. -/
def padNum (w n : Nat) : String :=
  ⟨List.replicate (w - (toString n).length) '0' ++ (toString n).data⟩

/-- The state built by `TestDataGenerator.__init__`. -/
structure TestDataGenerator where
  base_url : String
  device_ids : List String
  owner_ids : List String
  location_ids : List String
  terrorist_cells : List (List String)
  cell_locations : List (List String × List String)
  deriving DecidableEq

/-- The dict comprehension
`{tuple(cell): random.sample(self.location_ids, 5) for cell in self.terrorist_cells}`,
modelled as an association list in iteration order. -/
def buildCellLocations (location_ids : List String) :
    List (List String) → Gen → Option (List (List String × List String) × Gen)
  | [], g => some ([], g)
  | c :: cs, g =>
    match sample location_ids 5 g with
    | none => none
    | some (locs, g1) =>
      (buildCellLocations location_ids cs g1).map (fun p => ((c, locs) :: p.1, p.2))

/-- `[f"D{i:05d}" for i in range(50)]`. -/
def initialDeviceIds : List String := (List.range 50).map (fun i => "D" ++ padNum 5 i)

/-- `[f"O{i:05d}" for i in range(30)]`. -/
def initialOwnerIds : List String := (List.range 30).map (fun i => "O" ++ padNum 5 i)

/-- `[f"L{i:05d}" for i in range(20)]`. -/
def initialLocationIds : List String := (List.range 20).map (fun i => "L" ++ padNum 5 i)

/-- `[self.owner_ids[i:i + 5] for i in range(0, 15, 5)]`
(`range(0, 15, 5)` is `[0, 5, 10]`). -/
def initialCells : List (List String) :=
  [0, 5, 10].map (fun i => (initialOwnerIds.drop i).take 5)

/-- `TestDataGenerator.__init__`: fixed pools, the partition of the first 15
owners into 3 cells of 5, and the per-cell location samples. -/
def TestDataGenerator.init (base_url : String) (g : Gen) :
    Option (TestDataGenerator × Gen) :=
  match buildCellLocations initialLocationIds initialCells g with
  | none => none
  | some (cl, g1) =>
    some (⟨base_url, initialDeviceIds, initialOwnerIds, initialLocationIds,
      initialCells, cl⟩, g1)

/-- `self.cell_locations[tuple(cell_members)]`: `none` models the `KeyError`. -/
def lookupCell (cl : List (List String × List String)) (key : List String) :
    Option (List String) :=
  cl.lookup key

/-- `generate_normal_movement`, with draws consumed in source order:
device, owner, location, the `randint(0, 48)` hour offset, the movement
type and the confidence draw. -/
def TestDataGenerator.generate_normal_movement (t : TestDataGenerator)
    (now : Int) (g : Gen) : Option (Movement × Gen) :=
  match choice t.device_ids g with
  | none => none
  | some (device_id, g1) =>
    match choice t.owner_ids g1 with
    | none => none
    | some (owner_id, g2) =>
      match choice t.location_ids g2 with
      | none => none
      | some (location_id, g3) =>
        let p := randint 0 48 g3
        match choice movementTypes p.2 with
        | none => none
        | some (mt, g5) =>
          let u := uniform (7/10) 1 g5
          some (⟨device_id, owner_id, now - 60 * (p.1 : Int), location_id,
            mt, round2 u.1⟩, u.2)

theorem generate_normal_movement_spec (t : TestDataGenerator) (now : Int) (g : Gen)
    (hd : t.device_ids ≠ []) (ho : t.owner_ids ≠ []) (hl : t.location_ids ≠ []) :
    ∃ m g', t.generate_normal_movement now g = some (m, g') ∧
      m.device_id ∈ t.device_ids ∧ m.owner_id ∈ t.owner_ids ∧
      m.location_id ∈ t.location_ids ∧ m.movement_type ∈ movementTypes ∧
      now - 2880 ≤ m.timestamp ∧ m.timestamp ≤ now ∧
      7/10 ≤ m.confidence_level ∧ m.confidence_level ≤ 1 := by
  obtain ⟨d, g1, hc1, hm1⟩ := choice_some t.device_ids g hd
  obtain ⟨o, g2, hc2, hm2⟩ := choice_some t.owner_ids g1 ho
  obtain ⟨l, g3, hc3, hm3⟩ := choice_some t.location_ids g2 hl
  obtain ⟨mt, g5, hc4, hm4⟩ := choice_some movementTypes (randint 0 48 g3).2
    (by simp [movementTypes])
  have hr := randint_bounds 0 48 g3 (by omega)
  have hu := uniform_bounds (7/10) 1 g5 (by norm_num)
  have h1 : ((70 : ℤ) : ℚ) / 100 ≤ (uniform (7/10) 1 g5).1 := by
    push_cast
    linarith [hu.1]
  have h2 : (uniform (7/10) 1 g5).1 ≤ ((100 : ℤ) : ℚ) / 100 := by
    push_cast
    linarith [hu.2]
  have rb := round2_bounds 70 100 h1 h2
  push_cast at rb
  refine ⟨⟨d, o, now - 60 * ((randint 0 48 g3).1 : Int), l, mt,
    round2 (uniform (7/10) 1 g5).1⟩, (uniform (7/10) 1 g5).2, ?_,
    hm1, hm2, hm3, hm4,
    by show now - 2880 ≤ now - 60 * ((randint 0 48 g3).1 : Int); omega,
    by show now - 60 * ((randint 0 48 g3).1 : Int) ≤ now; omega,
    by linarith [rb.1], by linarith [rb.2]⟩
  simp only [TestDataGenerator.generate_normal_movement, hc1, hc2, hc3, hc4]

/-! ### `generate_cell_movement_pattern` -/

/-- The dict comprehension assigning each member
`random.sample(self.device_ids, random.randint(1, 3))`, as an association
list in member order. -/
def assignDevices (device_ids : List String) :
    List String → Gen → Option (List (String × List String) × Gen)
  | [], g => some ([], g)
  | m :: ms, g =>
    let k := randint 1 3 g
    match sample device_ids k.1 k.2 with
    | none => none
    | some (ds, g2) =>
      (assignDevices device_ids ms g2).map (fun p => ((m, ds) :: p.1, p.2))

/-- `Σ` of devices assigned per member. -/
def sumDevices (assignment : List (String × List String)) : Nat :=
  (assignment.map (fun p => p.2.length)).sum

/-- The two appends of the innermost loop body: movement to the current
location (`base + randint(0, 30)` minutes) and movement to the next location
(`base + randint(45, 90)` minutes), draws in source order. -/
def cellDeviceRecords (member device cur nxt : String) (base : Int) (g : Gen) :
    Option (List Movement × Gen) :=
  let p1 := randint 0 30 g
  match choice movementTypes p1.2 with
  | none => none
  | some (mt1, g1) =>
    let u1 := uniform (8/10) 1 g1
    let p2 := randint 45 90 u1.2
    match choice movementTypes p2.2 with
    | none => none
    | some (mt2, g2) =>
      let u2 := uniform (8/10) 1 g2
      some ([⟨device, member, base + (p1.1 : Int), cur, mt1, round2 u1.1⟩,
             ⟨device, member, base + (p2.1 : Int), nxt, mt2, round2 u2.1⟩], u2.2)

/-- `for device in member_devices[member]`. -/
def cellDevicesLoop (member cur nxt : String) (base : Int) :
    List String → Gen → Option (List Movement × Gen)
  | [], g => some ([], g)
  | d :: ds, g =>
    match cellDeviceRecords member d cur nxt base g with
    | none => none
    | some (ms1, g1) =>
      (cellDevicesLoop member cur nxt base ds g1).map (fun p => (ms1 ++ p.1, p.2))

/-- `for member in cell_members` (iterating the assignment in insertion
order, as the Python dict does). -/
def cellMembersLoop (cur nxt : String) (base : Int) :
    List (String × List String) → Gen → Option (List Movement × Gen)
  | [], g => some ([], g)
  | (m, ds) :: rest, g =>
    match cellDevicesLoop m cur nxt base ds g with
    | none => none
    | some (ms1, g1) =>
      (cellMembersLoop cur nxt base rest g1).map (fun p => (ms1 ++ p.1, p.2))

/-- `for i in range(len(locations))`, with `current_loc = locations[i]`,
`next_loc = locations[(i + 1) % len(locations)]` and `base_time` advancing
by 2 hours after each step. -/
def cellLocationsLoop (locations : List String)
    (assignment : List (String × List String)) :
    List Nat → Int → Gen → Option (List Movement × Gen)
  | [], _, g => some ([], g)
  | i :: is, base, g =>
    match locations[i]? with
    | none => none
    | some cur =>
      match locations[(i + 1) % locations.length]? with
      | none => none
      | some nxt =>
        match cellMembersLoop cur nxt base assignment g with
        | none => none
        | some (ms1, g1) =>
          (cellLocationsLoop locations assignment is (base + 120) g1).map
            (fun p => (ms1 ++ p.1, p.2))

/-- `generate_cell_movement_pattern`: location lookup (a `KeyError` for a
non-cell argument), base-time draw, per-member device assignment, then the
walk through the location cycle. -/
def TestDataGenerator.generate_cell_movement_pattern (t : TestDataGenerator)
    (cell_members : List String) (now : Int) (g : Gen) :
    Option (List Movement × Gen) :=
  match lookupCell t.cell_locations cell_members with
  | none => none
  | some locations =>
    let p := randint 0 48 g
    match assignDevices t.device_ids cell_members p.2 with
    | none => none
    | some (assignment, g2) =>
      cellLocationsLoop locations assignment (List.range locations.length)
        (now - 60 * (p.1 : Int)) g2

/-- Field ranges shared by every record a cell-pattern step emits at base
time `b` with step locations `cur`/`nxt`. -/
def CellRecOk (cur nxt : String) (b : Int) (m : Movement) : Prop :=
  (m.location_id = cur ∨ m.location_id = nxt) ∧
  8/10 ≤ m.confidence_level ∧ m.confidence_level ≤ 1 ∧
  b ≤ m.timestamp ∧ m.timestamp ≤ b + 90

theorem cellDeviceRecords_spec (member device cur nxt : String) (base : Int)
    (g : Gen) :
    ∃ ms g', cellDeviceRecords member device cur nxt base g = some (ms, g') ∧
      ms.length = 2 ∧ ∀ m ∈ ms, CellRecOk cur nxt base m := by
  obtain ⟨mt1, g1, hc1, hm1⟩ := choice_some movementTypes (randint 0 30 g).2
    (by simp [movementTypes])
  obtain ⟨mt2, g2, hc2, hm2⟩ :=
    choice_some movementTypes (randint 45 90 (uniform (8/10) 1 g1).2).2
    (by simp [movementTypes])
  have hr1 := randint_bounds 0 30 g (by omega)
  have hr2 := randint_bounds 45 90 (uniform (8/10) 1 g1).2 (by omega)
  have hu1 := uniform_bounds (8/10) 1 g1 (by norm_num)
  have hu2 := uniform_bounds (8/10) 1 g2 (by norm_num)
  have ha1 : ((80 : ℤ) : ℚ) / 100 ≤ (uniform (8/10) 1 g1).1 := by
    push_cast; linarith [hu1.1]
  have ha2 : (uniform (8/10) 1 g1).1 ≤ ((100 : ℤ) : ℚ) / 100 := by
    push_cast; linarith [hu1.2]
  have hb1 : ((80 : ℤ) : ℚ) / 100 ≤ (uniform (8/10) 1 g2).1 := by
    push_cast; linarith [hu2.1]
  have hb2 : (uniform (8/10) 1 g2).1 ≤ ((100 : ℤ) : ℚ) / 100 := by
    push_cast; linarith [hu2.2]
  have rb1 := round2_bounds 80 100 ha1 ha2
  have rb2 := round2_bounds 80 100 hb1 hb2
  push_cast at rb1 rb2
  refine ⟨[⟨device, member, base + ((randint 0 30 g).1 : Int), cur, mt1,
      round2 (uniform (8/10) 1 g1).1⟩,
    ⟨device, member, base + ((randint 45 90 (uniform (8/10) 1 g1).2).1 : Int),
      nxt, mt2, round2 (uniform (8/10) 1 g2).1⟩],
    (uniform (8/10) 1 g2).2, ?_, rfl, ?_⟩
  · simp only [cellDeviceRecords, hc1, hc2]
  · intro m hm
    rcases List.mem_cons.mp hm with h | h
    · subst h
      exact ⟨Or.inl rfl,
        by show 8/10 ≤ round2 (uniform (8/10) 1 g1).1; linarith [rb1.1],
        by show round2 (uniform (8/10) 1 g1).1 ≤ 1; linarith [rb1.2],
        by show base ≤ base + ((randint 0 30 g).1 : Int); omega,
        by show base + ((randint 0 30 g).1 : Int) ≤ base + 90; omega⟩
    · rcases List.mem_singleton.mp h with rfl
      have hup : base + ((randint 45 90 (uniform (8/10) 1 g1).2).1 : Int) ≤ base + 90 := by
        omega
      exact ⟨Or.inr rfl,
        by show 8/10 ≤ round2 (uniform (8/10) 1 g2).1; linarith [rb2.1],
        by show round2 (uniform (8/10) 1 g2).1 ≤ 1; linarith [rb2.2],
        by show base ≤ base + ((randint 45 90 (uniform (8/10) 1 g1).2).1 : Int); omega,
        hup⟩

theorem cellDevicesLoop_spec (member cur nxt : String) (base : Int) :
    ∀ (ds : List String) (g : Gen),
      ∃ ms g', cellDevicesLoop member cur nxt base ds g = some (ms, g') ∧
        ms.length = 2 * ds.length ∧ ∀ m ∈ ms, CellRecOk cur nxt base m := by
  intro ds
  induction ds with
  | nil => intro g; exact ⟨[], g, rfl, rfl, by simp⟩
  | cons d ds ih =>
    intro g
    obtain ⟨ms1, g1, h1, hl1, hp1⟩ := cellDeviceRecords_spec member d cur nxt base g
    obtain ⟨ms2, g2, h2, hl2, hp2⟩ := ih g1
    refine ⟨ms1 ++ ms2, g2, ?_, ?_, ?_⟩
    · simp only [cellDevicesLoop, h1, h2, Option.map_some']
    · simp [hl1, hl2]; omega
    · intro m hm
      rcases List.mem_append.mp hm with h | h
      · exact hp1 m h
      · exact hp2 m h

theorem cellMembersLoop_spec (cur nxt : String) (base : Int) :
    ∀ (assignment : List (String × List String)) (g : Gen),
      ∃ ms g', cellMembersLoop cur nxt base assignment g = some (ms, g') ∧
        ms.length = 2 * sumDevices assignment ∧
        ∀ m ∈ ms, CellRecOk cur nxt base m := by
  intro assignment
  induction assignment with
  | nil => intro g; exact ⟨[], g, rfl, rfl, by simp⟩
  | cons p rest ih =>
    obtain ⟨mem, ds⟩ := p
    intro g
    obtain ⟨ms1, g1, h1, hl1, hp1⟩ := cellDevicesLoop_spec mem cur nxt base ds g
    obtain ⟨ms2, g2, h2, hl2, hp2⟩ := ih g1
    refine ⟨ms1 ++ ms2, g2, ?_, ?_, ?_⟩
    · simp only [cellMembersLoop, h1, h2, Option.map_some']
    · simp only [List.length_append, hl1, hl2, sumDevices, List.map_cons,
        List.sum_cons]
      omega
    · intro m hm
      rcases List.mem_append.mp hm with h | h
      · exact hp1 m h
      · exact hp2 m h

theorem cellLocationsLoop_spec (locations : List String)
    (assignment : List (String × List String)) :
    ∀ (is : List Nat) (base : Int) (g : Gen),
      (∀ i ∈ is, i < locations.length) →
      ∃ ms g', cellLocationsLoop locations assignment is base g = some (ms, g') ∧
        ms.length = 2 * sumDevices assignment * is.length ∧
        ∀ m ∈ ms, m.location_id ∈ locations ∧
          8/10 ≤ m.confidence_level ∧ m.confidence_level ≤ 1 ∧
          base ≤ m.timestamp ∧ m.timestamp ≤ base + 120 * is.length + 90 := by
  intro is
  induction is with
  | nil => intro base g _; exact ⟨[], g, rfl, rfl, by simp⟩
  | cons i is ih =>
    intro base g his
    have hi : i < locations.length := his i (List.mem_cons_self i is)
    have hpos : 0 < locations.length := by omega
    have hnx : (i + 1) % locations.length < locations.length := Nat.mod_lt _ hpos
    obtain ⟨ms1, g1, h1, hl1, hp1⟩ :=
      cellMembersLoop_spec locations[i] locations[(i + 1) % locations.length]
        base assignment g
    obtain ⟨ms2, g2, h2, hl2, hp2⟩ := ih (base + 120) g1
      (fun j hj => his j (List.mem_cons_of_mem i hj))
    refine ⟨ms1 ++ ms2, g2, ?_, ?_, ?_⟩
    · simp only [cellLocationsLoop, List.getElem?_eq_getElem hi,
        List.getElem?_eq_getElem hnx, h1, h2, Option.map_some']
    · simp only [List.length_append, hl1, hl2, List.length_cons]
      ring
    · intro m hm
      rcases List.mem_append.mp hm with h | h
      · obtain ⟨hloc, hc1, hc2, ht1, ht2⟩ := hp1 m h
        refine ⟨?_, hc1, hc2, ht1, ?_⟩
        · rcases hloc with h' | h'
          · exact h' ▸ List.getElem_mem hi
          · exact h' ▸ List.getElem_mem hnx
        · simp only [List.length_cons]
          push_cast
          omega
      · obtain ⟨hloc, hc1, hc2, ht1, ht2⟩ := hp2 m h
        refine ⟨hloc, hc1, hc2, by omega, ?_⟩
        simp only [List.length_cons]
        push_cast
        omega

theorem assignDevices_spec (device_ids : List String)
    (hd : 3 ≤ device_ids.length) :
    ∀ (members : List String) (g : Gen),
      ∃ a g', assignDevices device_ids members g = some (a, g') ∧
        a.map Prod.fst = members ∧
        ∀ p ∈ a, 1 ≤ p.2.length ∧ p.2.length ≤ 3 ∧
          ∀ d ∈ p.2, d ∈ device_ids := by
  intro members
  induction members with
  | nil => intro g; exact ⟨[], g, rfl, rfl, by simp⟩
  | cons m ms ih =>
    intro g
    have hk := randint_bounds 1 3 g (by omega)
    obtain ⟨ds, g2, hs⟩ := sample_some device_ids (randint 1 3 g).1
      (randint 1 3 g).2 (by omega)
    obtain ⟨hlen, hsub⟩ := sample_spec hs
    obtain ⟨a, g3, ha, hfst, hp⟩ := ih g2
    refine ⟨(m, ds) :: a, g3, ?_, ?_, ?_⟩
    · simp only [assignDevices, hs, ha, Option.map_some']
    · simp [hfst]
    · intro p hp'
      rcases List.mem_cons.mp hp' with h | h
      · subst h
        exact ⟨by show 1 ≤ ds.length; omega, by show ds.length ≤ 3; omega, hsub⟩
      · exact hp p h

/-! ### `generate_device_transfer_pattern` -/

/-- `for i in range(len(cell))` of the transfer generator: per index, a
random transfer location, a record for `cell[i]` at `base_time`, a record
for `cell[(i + 1) % len(cell)]` at `base_time + randint(15, 30)` minutes
(both `"walking"`, confidence `0.9`), then `base_time += 3 hours`. -/
def transferLoop (cell locations : List String) (device_id : String) :
    List Nat → Int → Gen → Option (List Movement × Gen)
  | [], _, g => some ([], g)
  | i :: is, base, g =>
    match cell[i]? with
    | none => none
    | some current_owner =>
      match cell[(i + 1) % cell.length]? with
      | none => none
      | some next_owner =>
        match choice locations g with
        | none => none
        | some (transfer_location, g1) =>
          let p := randint 15 30 g1
          (transferLoop cell locations device_id is (base + 180) p.2).map
            (fun q =>
              (⟨device_id, current_owner, base, transfer_location,
                  "walking", 9/10⟩ ::
               ⟨device_id, next_owner, base + (p.1 : Int), transfer_location,
                  "walking", 9/10⟩ :: q.1, q.2))

/-- `generate_device_transfer_pattern`: random cell, its locations, a random
device from the full pool, a base-time draw, then the hand-off loop. -/
def TestDataGenerator.generate_device_transfer_pattern (t : TestDataGenerator)
    (now : Int) (g : Gen) : Option (List Movement × Gen) :=
  match choice t.terrorist_cells g with
  | none => none
  | some (cell, g1) =>
    match lookupCell t.cell_locations cell with
    | none => none
    | some locations =>
      match choice t.device_ids g1 with
      | none => none
      | some (device_id, g2) =>
        let p := randint 0 48 g2
        transferLoop cell locations device_id (List.range cell.length)
          (now - 60 * (p.1 : Int)) p.2

theorem transferLoop_spec (cell locations : List String) (d : String)
    (hnl : locations ≠ []) :
    ∀ (idxs : List Nat) (base : Int) (g : Gen),
      (∀ i ∈ idxs, i < cell.length) →
      ∃ ms g', transferLoop cell locations d idxs base g = some (ms, g') ∧
        ms.length = 2 * idxs.length ∧
        (∀ m ∈ ms, m.device_id = d ∧ m.movement_type = "walking" ∧
          m.confidence_level = 9/10 ∧ m.location_id ∈ locations ∧
          base ≤ m.timestamp ∧ m.timestamp ≤ base + 180 * idxs.length + 30) ∧
        ∀ j, j < idxs.length →
          (ms[2*j]?).map Movement.owner_id =
            ((idxs[j]?).bind (fun i => cell[i]?)) ∧
          (ms[2*j+1]?).map Movement.owner_id =
            ((idxs[j]?).bind (fun i => cell[(i + 1) % cell.length]?)) ∧
          (ms[2*j]?).map Movement.location_id =
            (ms[2*j+1]?).map Movement.location_id := by
  intro idxs
  induction idxs with
  | nil =>
    intro base g _
    exact ⟨[], g, rfl, rfl, by simp, by simp⟩
  | cons i is ih =>
    intro base g his
    have hi : i < cell.length := his i (List.mem_cons_self i is)
    have hpos : 0 < cell.length := by omega
    have hnx : (i + 1) % cell.length < cell.length := Nat.mod_lt _ hpos
    obtain ⟨loc, g1, hcl, hlocmem⟩ := choice_some locations g hnl
    have hr := randint_bounds 15 30 g1 (by omega)
    obtain ⟨ms2, g2, h2, hl2, hp2, hidx2⟩ := ih (base + 180) (randint 15 30 g1).2
      (fun j hj => his j (List.mem_cons_of_mem i hj))
    refine ⟨⟨d, cell[i], base, loc, "walking", 9/10⟩ ::
        ⟨d, cell[(i + 1) % cell.length], base + ((randint 15 30 g1).1 : Int),
          loc, "walking", 9/10⟩ :: ms2, g2, ?_, ?_, ?_, ?_⟩
    · simp only [transferLoop, List.getElem?_eq_getElem hi,
        List.getElem?_eq_getElem hnx, hcl, h2, Option.map_some']
    · simp only [List.length_cons, hl2]
      omega
    · intro m hm
      rcases List.mem_cons.mp hm with h | h
      · subst h
        refine ⟨rfl, rfl, rfl, hlocmem, le_refl _, ?_⟩
        show base ≤ base + 180 * ((is.length : Int) + 1) + 30
        have : (0 : Int) ≤ (is.length : Int) := by positivity
        omega
      rcases List.mem_cons.mp h with h' | h'
      · subst h'
        refine ⟨rfl, rfl, rfl, hlocmem,
          by show base ≤ base + ((randint 15 30 g1).1 : Int); omega, ?_⟩
        show base + ((randint 15 30 g1).1 : Int) ≤
          base + 180 * ((is.length : Int) + 1) + 30
        omega
      · obtain ⟨hd', hmt, hcf, hlm, ht1, ht2⟩ := hp2 m h'
        refine ⟨hd', hmt, hcf, hlm, by omega, ?_⟩
        show m.timestamp ≤ base + 180 * ((is.length : Int) + 1) + 30
        omega
    · intro j hj
      cases j with
      | zero =>
        refine ⟨?_, ?_, ?_⟩
        · simp [List.getElem?_eq_getElem hi]
        · simp [List.getElem?_eq_getElem hnx]
        · simp
      | succ j =>
        have hj' : j < is.length := by simpa using Nat.lt_of_succ_lt_succ hj
        obtain ⟨e1, e2, e3⟩ := hidx2 j hj'
        have ha : 2 * (j + 1) = 2 * j + 1 + 1 := by ring
        rw [ha]
        simp only [List.getElem?_cons_succ]
        exact ⟨e1, e2, e3⟩

/-! ### Top-level generator specifications -/

theorem gcmp_none {t : TestDataGenerator} {cell : List String}
    (h : lookupCell t.cell_locations cell = none) (now : Int) (g : Gen) :
    t.generate_cell_movement_pattern cell now g = none := by
  simp [TestDataGenerator.generate_cell_movement_pattern, h]

theorem gcmp_spec {t : TestDataGenerator} {cell locations : List String}
    (hL : lookupCell t.cell_locations cell = some locations)
    (hd : 3 ≤ t.device_ids.length) (now : Int) (g : Gen) :
    ∃ assignment g2 ms g',
      assignDevices t.device_ids cell (randint 0 48 g).2 = some (assignment, g2) ∧
      t.generate_cell_movement_pattern cell now g = some (ms, g') ∧
      assignment.map Prod.fst = cell ∧
      ms.length = 2 * locations.length * sumDevices assignment ∧
      ∀ m ∈ ms, m.location_id ∈ locations ∧
        8/10 ≤ m.confidence_level ∧ m.confidence_level ≤ 1 ∧
        now - 2880 ≤ m.timestamp ∧
        m.timestamp ≤ now + 120 * locations.length + 90 := by
  obtain ⟨assignment, g2, ha, hfst, hprop⟩ :=
    assignDevices_spec t.device_ids hd cell (randint 0 48 g).2
  obtain ⟨ms, g', hloop, hlen, hmem⟩ :=
    cellLocationsLoop_spec locations assignment (List.range locations.length)
      (now - 60 * ((randint 0 48 g).1 : Int)) g2
      (fun i hi => List.mem_range.mp hi)
  have hr := randint_bounds 0 48 g (by omega)
  refine ⟨assignment, g2, ms, g', ha, ?_, hfst, ?_, ?_⟩
  · simp only [TestDataGenerator.generate_cell_movement_pattern, hL, ha, hloop]
  · rw [hlen, List.length_range]
    ring
  · intro m hm
    obtain ⟨h1, h2, h3, h4, h5⟩ := hmem m hm
    rw [List.length_range] at h5
    exact ⟨h1, h2, h3, by omega, by omega⟩

theorem gcmp_eq_some {t : TestDataGenerator} {cell : List String} {now : Int}
    {g : Gen} {ms : List Movement} {g' : Gen} (hd : 3 ≤ t.device_ids.length)
    (h : t.generate_cell_movement_pattern cell now g = some (ms, g')) :
    ∃ locations assignment g2,
      lookupCell t.cell_locations cell = some locations ∧
      assignDevices t.device_ids cell (randint 0 48 g).2 = some (assignment, g2) ∧
      assignment.map Prod.fst = cell ∧
      ms.length = 2 * locations.length * sumDevices assignment ∧
      ∀ m ∈ ms, m.location_id ∈ locations ∧
        8/10 ≤ m.confidence_level ∧ m.confidence_level ≤ 1 ∧
        now - 2880 ≤ m.timestamp ∧
        m.timestamp ≤ now + 120 * locations.length + 90 := by
  cases hL : lookupCell t.cell_locations cell with
  | none => rw [gcmp_none hL now g] at h; cases h
  | some locations =>
    obtain ⟨assignment, g2, ms0, g0, ha, heq, hfst, hlen, hmem⟩ :=
      gcmp_spec hL hd now g
    rw [h] at heq
    obtain ⟨rfl, rfl⟩ := Prod.ext_iff.mp (Option.some.inj heq)
    exact ⟨locations, assignment, g2, rfl, ha, hfst, hlen, hmem⟩

theorem gdtp_spec {t : TestDataGenerator} (now : Int) (g : Gen)
    (hc : t.terrorist_cells ≠ [])
    (hkeys : ∀ c ∈ t.terrorist_cells,
      ∃ locs, lookupCell t.cell_locations c = some locs ∧ locs ≠ [])
    (hd : t.device_ids ≠ []) :
    ∃ cell locations d ms g',
      cell ∈ t.terrorist_cells ∧
      lookupCell t.cell_locations cell = some locations ∧
      d ∈ t.device_ids ∧
      t.generate_device_transfer_pattern now g = some (ms, g') ∧
      ms.length = 2 * cell.length ∧
      (∀ m ∈ ms, m.device_id = d ∧ m.movement_type = "walking" ∧
        m.confidence_level = 9/10 ∧ m.location_id ∈ locations ∧
        now - 2880 ≤ m.timestamp ∧
        m.timestamp ≤ now + 180 * cell.length + 30) ∧
      ∀ j, j < cell.length →
        (ms[2*j]?).map Movement.owner_id = cell[j]? ∧
        (ms[2*j+1]?).map Movement.owner_id = cell[(j + 1) % cell.length]? ∧
        (ms[2*j]?).map Movement.location_id =
          (ms[2*j+1]?).map Movement.location_id := by
  obtain ⟨cell, g1, hcc, hcm⟩ := choice_some t.terrorist_cells g hc
  obtain ⟨locations, hL, hlne⟩ := hkeys cell hcm
  obtain ⟨d, g2, hdc, hdm⟩ := choice_some t.device_ids g1 hd
  have hr := randint_bounds 0 48 g2 (by omega)
  obtain ⟨ms, g', hloop, hlen, hmem, hidx⟩ :=
    transferLoop_spec cell locations d hlne (List.range cell.length)
      (now - 60 * ((randint 0 48 g2).1 : Int)) (randint 0 48 g2).2
      (fun i hi => List.mem_range.mp hi)
  refine ⟨cell, locations, d, ms, g', hcm, hL, hdm, ?_, ?_, ?_, ?_⟩
  · simp only [TestDataGenerator.generate_device_transfer_pattern, hcc, hL,
      hdc, hloop]
  · rw [hlen, List.length_range]
  · intro m hm
    obtain ⟨h1, h2, h3, h4, h5, h6⟩ := hmem m hm
    rw [List.length_range] at h6
    exact ⟨h1, h2, h3, h4, by omega, by omega⟩
  · intro j hj
    have hj' : j < (List.range cell.length).length := by
      rw [List.length_range]; exact hj
    obtain ⟨e1, e2, e3⟩ := hidx j hj'
    rw [List.getElem?_range hj] at e1 e2
    exact ⟨e1, e2, e3⟩

theorem gdtp_eq_some {t : TestDataGenerator} {now : Int} {g : Gen}
    {ms : List Movement} {g' : Gen}
    (hc : t.terrorist_cells ≠ [])
    (hkeys : ∀ c ∈ t.terrorist_cells,
      ∃ locs, lookupCell t.cell_locations c = some locs ∧ locs ≠ [])
    (hd : t.device_ids ≠ [])
    (h : t.generate_device_transfer_pattern now g = some (ms, g')) :
    ∃ cell locations d,
      cell ∈ t.terrorist_cells ∧
      lookupCell t.cell_locations cell = some locations ∧
      d ∈ t.device_ids ∧
      ms.length = 2 * cell.length ∧
      (∀ m ∈ ms, m.device_id = d ∧ m.movement_type = "walking" ∧
        m.confidence_level = 9/10 ∧ m.location_id ∈ locations ∧
        now - 2880 ≤ m.timestamp ∧
        m.timestamp ≤ now + 180 * cell.length + 30) ∧
      ∀ j, j < cell.length →
        (ms[2*j]?).map Movement.owner_id = cell[j]? ∧
        (ms[2*j+1]?).map Movement.owner_id = cell[(j + 1) % cell.length]? ∧
        (ms[2*j]?).map Movement.location_id =
          (ms[2*j+1]?).map Movement.location_id := by
  obtain ⟨cell, locations, d, ms0, g0, hcm, hL, hdm, heq, hlen, hmem, hidx⟩ :=
    gdtp_spec now g hc hkeys hd
  rw [h] at heq
  obtain ⟨rfl, rfl⟩ := Prod.ext_iff.mp (Option.some.inj heq)
  exact ⟨cell, locations, d, hcm, hL, hdm, hlen, hmem, hidx⟩

/-! ### Constructor lemmas -/

theorem buildCellLocations_spec {location_ids : List String} :
    ∀ {cs : List (List String)} {g : Gen}
      {cl : List (List String × List String)} {g' : Gen},
      buildCellLocations location_ids cs g = some (cl, g') →
      cl.map Prod.fst = cs ∧
      ∀ p ∈ cl, p.2.length = 5 ∧ ∀ l ∈ p.2, l ∈ location_ids := by
  intro cs
  induction cs with
  | nil =>
    intro g cl g' h
    cases h
    simp
  | cons c cs ih =>
    intro g cl g' h
    unfold buildCellLocations at h
    cases hs : sample location_ids 5 g with
    | none =>
      rw [hs] at h
      exact Option.noConfusion (h : (none : Option _) = some (cl, g'))
    | some q =>
      obtain ⟨locs, g1⟩ := q
      rw [hs] at h
      replace h : (buildCellLocations location_ids cs g1).map
          (fun p => ((c, locs) :: p.1, p.2)) = some (cl, g') := h
      cases hb : buildCellLocations location_ids cs g1 with
      | none =>
        rw [hb] at h
        exact Option.noConfusion h
      | some r =>
        obtain ⟨cl2, g2⟩ := r
        rw [hb] at h
        replace h : some (((c, locs) :: cl2, g2) :
            List (List String × List String) × Gen) = some (cl, g') := h
        obtain ⟨rfl, rfl⟩ := Prod.ext_iff.mp (Option.some.inj h)
        obtain ⟨h1, h2⟩ := ih hb
        obtain ⟨hlen, hmem⟩ := sample_spec hs
        refine ⟨by simp [h1], ?_⟩
        intro p hp
        rcases List.mem_cons.mp hp with hp | hp
        · subst hp
          exact ⟨hlen, hmem⟩
        · exact h2 p hp

theorem buildCellLocations_some {location_ids : List String}
    (h5 : 5 ≤ location_ids.length) :
    ∀ (cs : List (List String)) (g : Gen),
      ∃ cl g', buildCellLocations location_ids cs g = some (cl, g') := by
  intro cs
  induction cs with
  | nil => intro g; exact ⟨[], g, rfl⟩
  | cons c cs ih =>
    intro g
    obtain ⟨locs, g1, hs⟩ := sample_some location_ids 5 g h5
    obtain ⟨cl, g', hb⟩ := ih g1
    exact ⟨(c, locs) :: cl, g', by
      unfold buildCellLocations
      simp [hs, hb]⟩

theorem init_some (u : String) (g : Gen) :
    ∃ t g1, TestDataGenerator.init u g = some (t, g1) := by
  have h20 : 5 ≤ initialLocationIds.length := by
    norm_num [initialLocationIds]
  obtain ⟨cl, g1, hb⟩ := buildCellLocations_some h20 initialCells g
  refine ⟨⟨u, initialDeviceIds, initialOwnerIds, initialLocationIds,
    initialCells, cl⟩, g1, ?_⟩
  unfold TestDataGenerator.init
  rw [hb]

theorem init_inv {u : String} {g0 : Gen} {t : TestDataGenerator} {g1 : Gen}
    (h : TestDataGenerator.init u g0 = some (t, g1)) :
    t.base_url = u ∧ t.device_ids = initialDeviceIds ∧
    t.owner_ids = initialOwnerIds ∧ t.location_ids = initialLocationIds ∧
    t.terrorist_cells = initialCells ∧
    buildCellLocations initialLocationIds initialCells g0 =
      some (t.cell_locations, g1) := by
  unfold TestDataGenerator.init at h
  cases hb : buildCellLocations initialLocationIds initialCells g0 with
  | none =>
    rw [hb] at h
    exact Option.noConfusion (h : (none : Option _) = some (t, g1))
  | some p =>
    obtain ⟨cl, g2⟩ := p
    rw [hb] at h
    replace h : some ((⟨u, initialDeviceIds, initialOwnerIds,
        initialLocationIds, initialCells, cl⟩ : TestDataGenerator), g2) =
        some (t, g1) := h
    obtain ⟨rfl, rfl⟩ := Prod.ext_iff.mp (Option.some.inj h)
    exact ⟨rfl, rfl, rfl, rfl, rfl, rfl⟩

theorem lookup_some_of_mem_keys {cl : List (List String × List String)}
    {key : List String} (h : key ∈ cl.map Prod.fst) :
    ∃ v, lookupCell cl key = some v ∧ (key, v) ∈ cl := by
  induction cl with
  | nil => simp at h
  | cons p cl ih =>
    obtain ⟨k, v⟩ := p
    by_cases hk : key = k
    · subst hk
      exact ⟨v, by simp [lookupCell], by simp⟩
    · have h' : key ∈ cl.map Prod.fst := by
        simp only [List.map_cons, List.mem_cons] at h
        rcases h with h | h
        · exact absurd h hk
        · exact h
      obtain ⟨v', hv, hm⟩ := ih h'
      refine ⟨v', ?_, List.mem_cons_of_mem _ hm⟩
      simp only [lookupCell, List.lookup_cons] at hv ⊢
      have : (key == k) = false := beq_false_of_ne hk
      rw [this]
      exact hv

theorem lookup_none_of_not_mem_keys {cl : List (List String × List String)}
    {key : List String} (h : key ∉ cl.map Prod.fst) :
    lookupCell cl key = none := by
  unfold lookupCell
  rw [List.lookup_eq_none_iff]
  intro p hp
  have : p.1 ∈ cl.map Prod.fst := List.mem_map_of_mem Prod.fst hp
  have hne : key ≠ p.1 := fun he => h (he ▸ this)
  simpa using hne

/-- The facts about a constructed generator that the claim proofs use. -/
theorem init_facts {u : String} {g0 : Gen} {t : TestDataGenerator} {g1 : Gen}
    (h : TestDataGenerator.init u g0 = some (t, g1)) :
    t.device_ids.length = 50 ∧ t.owner_ids ≠ [] ∧ t.location_ids ≠ [] ∧
    t.terrorist_cells.length = 3 ∧ (∀ c ∈ t.terrorist_cells, c.length = 5) ∧
    t.cell_locations.map Prod.fst = t.terrorist_cells ∧
    ∀ p ∈ t.cell_locations, p.2.length = 5 ∧ ∀ l ∈ p.2, l ∈ t.location_ids := by
  obtain ⟨-, hdev, how, hloc, hcells, hb⟩ := init_inv h
  obtain ⟨hkeys, hvals⟩ := buildCellLocations_spec hb
  refine ⟨?_, ?_, ?_, ?_, ?_, ?_, ?_⟩
  · rw [hdev]; norm_num [initialDeviceIds]
  · rw [how]; simp [initialOwnerIds]
  · rw [hloc]; simp [initialLocationIds]
  · rw [hcells]; norm_num [initialCells]
  · rw [hcells]
    intro c hc
    simp only [initialCells, List.mem_map] at hc
    obtain ⟨i, hi, rfl⟩ := hc
    have : i ≤ 10 := by
      simp only [List.mem_cons] at hi
      rcases hi with rfl | rfl | rfl | hi
      · omega
      · omega
      · omega
      · exact absurd hi (List.not_mem_nil i)
    simp only [List.length_take, List.length_drop, initialOwnerIds,
      List.length_map, List.length_range]
    omega
  · rw [hcells]
    exact hkeys
  · intro p hp
    obtain ⟨hl5, hsub⟩ := hvals p hp
    exact ⟨hl5, fun l hl => hloc ▸ hsub l hl⟩

/-! ### `generate_dataset` -/

/-- `for _ in range(n): all_movements.append(self.generate_normal_movement())`. -/
def genNormals (t : TestDataGenerator) (now : Int) :
    Nat → Gen → Option (List Movement × Gen)
  | 0, g => some ([], g)
  | n + 1, g =>
    match t.generate_normal_movement now g with
    | none => none
    | some (m, g1) => (genNormals t now n g1).map (fun p => (m :: p.1, p.2))

/-- `for cell in self.terrorist_cells: all_movements.extend(...)`. -/
def genCellPatterns (t : TestDataGenerator) (now : Int) :
    List (List String) → Gen → Option (List Movement × Gen)
  | [], g => some ([], g)
  | c :: cs, g =>
    match t.generate_cell_movement_pattern c now g with
    | none => none
    | some (ms, g1) => (genCellPatterns t now cs g1).map (fun p => (ms ++ p.1, p.2))

/-- `for _ in range(n): all_movements.extend(self.generate_device_transfer_pattern())`. -/
def genTransfers (t : TestDataGenerator) (now : Int) :
    Nat → Gen → Option (List Movement × Gen)
  | 0, g => some ([], g)
  | n + 1, g =>
    match t.generate_device_transfer_pattern now g with
    | none => none
    | some (ms, g1) => (genTransfers t now n g1).map (fun p => (ms ++ p.1, p.2))

/-- The sort key `lambda x: x['timestamp']`: the dict's timestamp field is
the ISO string of the record's minute count. -/
def sortKey (m : Movement) : String := isoformat m.timestamp

/-- The comparison `all_movements.sort` uses: string `<=` on the keys. -/
def byTimestampKey (a b : Movement) : Prop := sortKey a ≤ sortKey b

instance : DecidableRel byTimestampKey :=
  fun a b => inferInstanceAs (Decidable (sortKey a ≤ sortKey b))

instance : IsTotal Movement byTimestampKey :=
  ⟨fun a b => le_total (sortKey a) (sortKey b)⟩

instance : IsTrans Movement byTimestampKey :=
  ⟨fun _ _ _ h1 h2 => le_trans h1 h2⟩

/-- `generate_dataset`: 1000 normal movements, the cell patterns in cell
order, 10 transfer runs, concatenated and sorted by the timestamp string.
Python's `list.sort` is a stable sort; any two stable sorts of the same
list under the same total preorder coincide, so insertion sort models it
exactly. -/
def TestDataGenerator.generate_dataset (t : TestDataGenerator) (now : Int)
    (g : Gen) : Option (List Movement × Gen) :=
  match genNormals t now 1000 g with
  | none => none
  | some (ns, g1) =>
    match genCellPatterns t now t.terrorist_cells g1 with
    | none => none
    | some (cs, g2) =>
      match genTransfers t now 10 g2 with
      | none => none
      | some (ts, g3) =>
        some (List.insertionSort byTimestampKey (ns ++ cs ++ ts), g3)

theorem genNormals_spec {t : TestDataGenerator} (now : Int)
    (hd : t.device_ids ≠ []) (ho : t.owner_ids ≠ []) (hl : t.location_ids ≠ []) :
    ∀ (n : Nat) (g : Gen), ∃ ns g', genNormals t now n g = some (ns, g') ∧
      ns.length = n ∧ ∀ m ∈ ns,
        now - 2880 ≤ m.timestamp ∧ m.timestamp ≤ now ∧
        7/10 ≤ m.confidence_level ∧ m.confidence_level ≤ 1 := by
  intro n
  induction n with
  | zero => intro g; exact ⟨[], g, rfl, rfl, by simp⟩
  | succ n ih =>
    intro g
    obtain ⟨m, g1, hm, -, -, -, -, ht1, ht2, hc1, hc2⟩ :=
      generate_normal_movement_spec t now g hd ho hl
    obtain ⟨ns, g', hns, hlen, hmem⟩ := ih g1
    refine ⟨m :: ns, g', ?_, by simp [hlen], ?_⟩
    · simp only [genNormals, hm, hns, Option.map_some']
    · intro x hx
      rcases List.mem_cons.mp hx with rfl | hx
      · exact ⟨ht1, ht2, hc1, hc2⟩
      · exact hmem x hx

theorem genCellPatterns_spec {t : TestDataGenerator} (now : Int)
    (hd3 : 3 ≤ t.device_ids.length) :
    ∀ (cs : List (List String)),
      (∀ c ∈ cs, ∃ locs, lookupCell t.cell_locations c = some locs ∧
        locs.length = 5) →
      ∀ g, ∃ ms g', genCellPatterns t now cs g = some (ms, g') ∧
        ∀ m ∈ ms, 8/10 ≤ m.confidence_level ∧ m.confidence_level ≤ 1 ∧
          now - 2880 ≤ m.timestamp ∧ m.timestamp ≤ now + 690 := by
  intro cs
  induction cs with
  | nil => intro _ g; exact ⟨[], g, rfl, by simp⟩
  | cons c cs ih =>
    intro hkeys g
    obtain ⟨locs, hL, hlocs5⟩ := hkeys c (List.mem_cons_self c cs)
    obtain ⟨assignment, g2, ms1, g1, -, heq, -, -, hmem1⟩ :=
      gcmp_spec hL hd3 now g
    obtain ⟨ms2, g', hcs, hmem2⟩ :=
      ih (fun c' hc' => hkeys c' (List.mem_cons_of_mem c hc')) g1
    refine ⟨ms1 ++ ms2, g', ?_, ?_⟩
    · simp only [genCellPatterns, heq, hcs, Option.map_some']
    · intro m hm
      rcases List.mem_append.mp hm with hm | hm
      · obtain ⟨-, hc1, hc2, ht1, ht2⟩ := hmem1 m hm
        rw [hlocs5] at ht2
        exact ⟨hc1, hc2, ht1, by omega⟩
      · exact hmem2 m hm

theorem genTransfers_spec {t : TestDataGenerator} (now : Int)
    (hc : t.terrorist_cells ≠ [])
    (hkeys : ∀ c ∈ t.terrorist_cells,
      ∃ locs, lookupCell t.cell_locations c = some locs ∧ locs ≠ [])
    (hd : t.device_ids ≠ [])
    (h5 : ∀ c ∈ t.terrorist_cells, c.length = 5) :
    ∀ (n : Nat) (g : Gen), ∃ ms g', genTransfers t now n g = some (ms, g') ∧
      ∀ m ∈ ms, m.confidence_level = 9/10 ∧
        now - 2880 ≤ m.timestamp ∧ m.timestamp ≤ now + 930 := by
  intro n
  induction n with
  | zero => intro g; exact ⟨[], g, rfl, by simp⟩
  | succ n ih =>
    intro g
    obtain ⟨cell, locations, d, ms1, g1, hcm, -, -, heq, -, hmem1, -⟩ :=
      gdtp_spec now g hc hkeys hd
    obtain ⟨ms2, g', hts, hmem2⟩ := ih g1
    refine ⟨ms1 ++ ms2, g', ?_, ?_⟩
    · simp only [genTransfers, heq, hts, Option.map_some']
    · intro m hm
      rcases List.mem_append.mp hm with hm | hm
      · obtain ⟨-, -, hcf, -, ht1, ht2⟩ := hmem1 m hm
        rw [h5 cell hcm] at ht2
        exact ⟨hcf, ht1, by omega⟩
      · exact hmem2 m hm

theorem generate_dataset_spec {u : String} {g0 : Gen} {t : TestDataGenerator}
    {g1 : Gen} (hinit : TestDataGenerator.init u g0 = some (t, g1))
    (now : Int) (g : Gen) :
    ∃ ns cs ts g2 g3 g4,
      genNormals t now 1000 g = some (ns, g2) ∧
      genCellPatterns t now t.terrorist_cells g2 = some (cs, g3) ∧
      genTransfers t now 10 g3 = some (ts, g4) ∧
      t.generate_dataset now g =
        some (List.insertionSort byTimestampKey (ns ++ cs ++ ts), g4) ∧
      ns.length = 1000 ∧
      ∀ m ∈ ns ++ cs ++ ts,
        now - 2880 ≤ m.timestamp ∧ m.timestamp ≤ now + 930 := by
  obtain ⟨hd50, how, hloc, -, h5, hkeys, hvals⟩ := init_facts hinit
  have hd : t.device_ids ≠ [] := by
    intro he
    rw [he] at hd50
    simp at hd50
  have hkeys5 : ∀ c ∈ t.terrorist_cells,
      ∃ locs, lookupCell t.cell_locations c = some locs ∧ locs.length = 5 := by
    intro c hc
    have : c ∈ t.cell_locations.map Prod.fst := hkeys ▸ hc
    obtain ⟨v, hv, hm⟩ := lookup_some_of_mem_keys this
    exact ⟨v, hv, (hvals (c, v) hm).1⟩
  have hkeysne : ∀ c ∈ t.terrorist_cells,
      ∃ locs, lookupCell t.cell_locations c = some locs ∧ locs ≠ [] := by
    intro c hc
    obtain ⟨locs, hv, hl5⟩ := hkeys5 c hc
    refine ⟨locs, hv, ?_⟩
    intro he
    rw [he] at hl5
    simp at hl5
  have hcne : t.terrorist_cells ≠ [] := by
    intro he
    have := init_facts hinit
    rw [he] at this
    simp at this
  obtain ⟨ns, g2, hns, hnlen, hnmem⟩ := genNormals_spec now hd how hloc 1000 g
  obtain ⟨cs, g3, hcs, hcmem⟩ :=
    genCellPatterns_spec now (by omega) t.terrorist_cells hkeys5 g2
  obtain ⟨ts, g4, hts, htmem⟩ :=
    genTransfers_spec now hcne hkeysne hd h5 10 g3
  refine ⟨ns, cs, ts, g2, g3, g4, hns, hcs, hts, ?_, hnlen, ?_⟩
  · simp only [TestDataGenerator.generate_dataset, hns, hcs, hts]
  · intro m hm
    rcases List.mem_append.mp hm with hm | hm
    · rcases List.mem_append.mp hm with hm | hm
      · obtain ⟨h1, h2, -, -⟩ := hnmem m hm
        exact ⟨h1, by omega⟩
      · obtain ⟨-, -, h3, h4⟩ := hcmem m hm
        exact ⟨h3, by omega⟩
    · obtain ⟨-, h2, h3⟩ := htmem m hm
      exact ⟨h2, h3⟩

/-! ### `send_movements` (Replay Client)

The HTTP boundary is abstracted as a `Transport`: what
`requests.post(url, json=movement)` followed by `response.json()` does for
a given URL and movement — either a status code with a parsed body, or a
raised exception message (covering transport and JSON-parsing failures
alike, both of which the `except` clause catches). -/

inductive PostOutcome where
  | ok (status : Nat) (body : String)
  | exn (msg : String)
  deriving DecidableEq

def PostOutcome.isOk : PostOutcome → Bool
  | .ok _ _ => true
  | .exn _ => false

def Transport : Type := String → Movement → PostOutcome

/-- One entry of the `results` list: either
`{'movement': m, 'status': code, 'response': body}` or
`{'movement': m, 'status': 'error', 'error': msg}`. -/
inductive ResultEntry where
  | ok (movement : Movement) (status : Nat) (response : String)
  | err (movement : Movement) (error : String)
  deriving DecidableEq

def ResultEntry.movement : ResultEntry → Movement
  | .ok m _ _ => m
  | .err m _ => m

def ResultEntry.isOk : ResultEntry → Bool
  | .ok _ _ _ => true
  | .err _ _ => false

/-- The observable side effects of the replay loop, in order:
`time.sleep(delay)`, the `Processed {i}/{total}` print, and the
`Error sending movement` print. -/
inductive Event where
  | sleep (delay : ℚ)
  | progress (i total : Nat)
  | errorPrint (msg : String)
  deriving DecidableEq

def Event.isSleep : Event → Bool
  | .sleep _ => true
  | _ => false

/-- `for i, movement in enumerate(movements, 1)`: on success append the ok
entry, print progress when `i % 100 == 0`, then sleep; on exception print
the error and append the error entry (no sleep, no progress — both sit
inside the `try` block). -/
def send_movements_loop (post : Movement → PostOutcome) (total : Nat)
    (delay : ℚ) : List Movement → Nat → List ResultEntry × List Event
  | [], _ => ([], [])
  | m :: ms, i =>
    match post m with
    | .ok status body =>
      let rest := send_movements_loop post total delay ms (i + 1)
      (.ok m status body :: rest.1,
        (if i % 100 = 0 then [Event.progress i total] else []) ++
          Event.sleep delay :: rest.2)
    | .exn msg =>
      let rest := send_movements_loop post total delay ms (i + 1)
      (.err m msg :: rest.1, Event.errorPrint msg :: rest.2)

/-- `send_movements(self, movements, delay=0.1)`. -/
def TestDataGenerator.send_movements (t : TestDataGenerator) (tr : Transport)
    (movements : List Movement) (delay : ℚ) : List ResultEntry × List Event :=
  send_movements_loop (tr (t.base_url ++ "/api/v1/movements"))
    movements.length delay movements 1

theorem send_movements_loop_results (post : Movement → PostOutcome)
    (total : Nat) (delay : ℚ) :
    ∀ (ms : List Movement) (i : Nat),
      (send_movements_loop post total delay ms i).1.length = ms.length ∧
      ∀ j, ∀ hj : j < ms.length,
        ∃ entry, (send_movements_loop post total delay ms i).1[j]? = some entry ∧
          ((∃ s b, entry = ResultEntry.ok ms[j] s b) ∨
           (∃ e, entry = ResultEntry.err ms[j] e)) := by
  intro ms
  induction ms with
  | nil =>
    intro i
    exact ⟨rfl, fun j hj => absurd hj (by simp)⟩
  | cons m ms ih =>
    intro i
    obtain ⟨ihlen, ihidx⟩ := ih (i + 1)
    cases hp : post m with
    | ok status body =>
      constructor
      · simp only [send_movements_loop, hp]
        simpa using ihlen
      · intro j hj
        cases j with
        | zero =>
          refine ⟨.ok m status body, ?_, Or.inl ⟨status, body, rfl⟩⟩
          simp only [send_movements_loop, hp]
          simp
        | succ j =>
          obtain ⟨entry, he, hshape⟩ := ihidx j (by simpa using hj)
          refine ⟨entry, ?_, ?_⟩
          · simp only [send_movements_loop, hp, List.getElem?_cons_succ]
            exact he
          · simpa using hshape
    | exn msg =>
      constructor
      · simp only [send_movements_loop, hp]
        simpa using ihlen
      · intro j hj
        cases j with
        | zero =>
          refine ⟨.err m msg, ?_, Or.inr ⟨msg, rfl⟩⟩
          simp only [send_movements_loop, hp]
          simp
        | succ j =>
          obtain ⟨entry, he, hshape⟩ := ihidx j (by simpa using hj)
          refine ⟨entry, ?_, ?_⟩
          · simp only [send_movements_loop, hp, List.getElem?_cons_succ]
            exact he
          · simpa using hshape

theorem send_movements_loop_sleep_count (post : Movement → PostOutcome)
    (total : Nat) (delay : ℚ) :
    ∀ (ms : List Movement) (i : Nat),
      ((send_movements_loop post total delay ms i).2.countP Event.isSleep) =
      ((send_movements_loop post total delay ms i).1.countP ResultEntry.isOk) := by
  intro ms
  induction ms with
  | nil => intro i; rfl
  | cons m ms ih =>
    intro i
    cases hp : post m with
    | ok status body =>
      simp only [send_movements_loop, hp, List.countP_cons, List.countP_append]
      by_cases hi : i % 100 = 0 <;>
        simp [hi, Event.isSleep, ResultEntry.isOk, List.countP_cons, ih (i + 1)]
    | exn msg =>
      simp only [send_movements_loop, hp, List.countP_cons]
      simp [Event.isSleep, ResultEntry.isOk, ih (i + 1)]

theorem send_movements_loop_progress (post : Movement → PostOutcome)
    (total : Nat) (delay : ℚ) :
    ∀ (ms : List Movement) (i k tt : Nat),
      (Event.progress k tt ∈ (send_movements_loop post total delay ms i).2 ↔
        (tt = total ∧ k % 100 = 0 ∧
          ∃ j, ∃ hj : j < ms.length, k = i + j ∧ (post ms[j]).isOk = true)) := by
  intro ms
  induction ms with
  | nil =>
    intro i k tt
    simp [send_movements_loop]
  | cons m ms ih =>
    intro i k tt
    cases hp : post m with
    | ok status body =>
      simp only [send_movements_loop, hp]
      constructor
      · intro hmem
        rcases List.mem_append.mp hmem with hmem | hmem
        · by_cases hi : i % 100 = 0
          · rw [if_pos hi] at hmem
            simp only [List.mem_singleton, Event.progress.injEq] at hmem
            obtain ⟨rfl, rfl⟩ := hmem
            exact ⟨rfl, hi, 0, by simp, by omega, by simp [hp, PostOutcome.isOk]⟩
          · rw [if_neg hi] at hmem
            simp at hmem
        · rcases List.mem_cons.mp hmem with hmem | hmem
          · cases hmem
          · obtain ⟨h1, h2, j, hj, h3, h4⟩ := (ih (i + 1) k tt).mp hmem
            exact ⟨h1, h2, j + 1, by simpa using hj, by omega, by simpa using h4⟩
      · rintro ⟨rfl, hk, j, hj, rfl, hok⟩
        cases j with
        | zero =>
          apply List.mem_append.mpr
          left
          have : (i + 0) % 100 = 0 := hk
          rw [if_pos (by omega : i % 100 = 0)]
          simp
        | succ j =>
          apply List.mem_append.mpr
          right
          apply List.mem_cons_of_mem
          apply (ih (i + 1) (i + (j + 1)) _).mpr
          exact ⟨rfl, by omega, j, by simpa using hj,
            by omega, by simpa using hok⟩
    | exn msg =>
      simp only [send_movements_loop, hp]
      constructor
      · intro hmem
        rcases List.mem_cons.mp hmem with hmem | hmem
        · cases hmem
        · obtain ⟨h1, h2, j, hj, h3, h4⟩ := (ih (i + 1) k tt).mp hmem
          exact ⟨h1, h2, j + 1, by simpa using hj, by omega, by simpa using h4⟩
      · rintro ⟨rfl, hk, j, hj, rfl, hok⟩
        cases j with
        | zero =>
          rw [show (m :: ms)[0] = m from rfl] at hok
          rw [hp] at hok
          simp [PostOutcome.isOk] at hok
        | succ j =>
          apply List.mem_cons_of_mem
          apply (ih (i + 1) (i + (j + 1)) _).mpr
          exact ⟨rfl, by omega, j, by simpa using hj, by omega, by simpa using hok⟩

/-! ### Concrete instances used by witnesses -/

instance : Inhabited TestDataGenerator := ⟨⟨"", [], [], [], [], []⟩⟩

/-- A concrete random stream (every raw draw is `0`). -/
def gZero : Gen := ⟨fun _ => 0, 0⟩

/-- The generator constructed from `gZero`. -/
def tdg0 : TestDataGenerator :=
  ((TestDataGenerator.init "http://localhost:5001" gZero).getD
    (default, gZero)).1

/-- The random state left after constructing `tdg0`. -/
def gInit : Gen :=
  ((TestDataGenerator.init "http://localhost:5001" gZero).getD
    (default, gZero)).2

/-- A concrete movement record. -/
def mv0 : Movement := ⟨"D00000", "O00000", 0, "L00000", "walking", 9/10⟩

/-- A transport whose every request raises. -/
def failTransport : Transport := fun _ _ => .exn "connection refused"

/-- A transport whose every request succeeds with status 201. -/
def okTransport : Transport := fun _ _ => .ok 201 "\x7b\x7d"

/-! ### The claims -/

/-- C1: `generate_dataset` produces exactly 1000 normal-movement records,
followed by the cell-pattern output for each of the 3 defined cells in cell
order, followed by 10 transfer-pattern runs, concatenated in that order and
then stably sorted, so that the timestamps of the resulting dataset are
non-decreasing (chronologically ascending) when iterated in order.  The
`now` window hypotheses place the run inside the rendered calendar month. -/
theorem C1_dataset_composition_and_sorted {u : String} {g0 : Gen}
    {t : TestDataGenerator} {g1 : Gen}
    (hinit : TestDataGenerator.init u g0 = some (t, g1))
    {now : Int} (hlo : 2880 ≤ now) (hhi : now ≤ 140000) (g : Gen) :
    ∃ ns cs ts g2 g3 g4 out,
      genNormals t now 1000 g = some (ns, g2) ∧
      genCellPatterns t now t.terrorist_cells g2 = some (cs, g3) ∧
      genTransfers t now 10 g3 = some (ts, g4) ∧
      t.generate_dataset now g = some (out, g4) ∧
      ns.length = 1000 ∧ t.terrorist_cells.length = 3 ∧
      out = List.insertionSort byTimestampKey (ns ++ cs ++ ts) ∧
      out.Perm (ns ++ cs ++ ts) ∧
      List.Pairwise (fun a b => a.timestamp ≤ b.timestamp) out := by
  obtain ⟨ns, cs, ts, g2, g3, g4, hns, hcs, hts, hds, hnlen, hwin⟩ :=
    generate_dataset_spec hinit now g
  obtain ⟨-, -, -, hc3, -, -, -⟩ := init_facts hinit
  refine ⟨ns, cs, ts, g2, g3, g4, _, hns, hcs, hts, hds, hnlen, hc3, rfl,
    List.perm_insertionSort byTimestampKey (ns ++ cs ++ ts), ?_⟩
  have hsorted : List.Pairwise byTimestampKey
      (List.insertionSort byTimestampKey (ns ++ cs ++ ts)) :=
    List.sorted_insertionSort byTimestampKey (ns ++ cs ++ ts)
  refine hsorted.imp_of_mem ?_
  intro a b ha hb hk
  have hperm := List.perm_insertionSort byTimestampKey (ns ++ cs ++ ts)
  have hwa := hwin a (hperm.subset ha)
  have hwb := hwin b (hperm.subset hb)
  have hka : isoformat a.timestamp ≤ isoformat b.timestamp := hk
  exact (isoformat_le_iff (by omega) (by omega) (by omega) (by omega)).mp hka

/-- C1 witness: a concrete constructed generator and a concrete `now`
inside the window. -/
theorem C1_dataset_composition_and_sorted_witness :
    ∃ ns cs ts g2 g3 g4 out,
      genNormals tdg0 2880 1000 gZero = some (ns, g2) ∧
      genCellPatterns tdg0 2880 tdg0.terrorist_cells g2 = some (cs, g3) ∧
      genTransfers tdg0 2880 10 g3 = some (ts, g4) ∧
      tdg0.generate_dataset 2880 gZero = some (out, g4) ∧
      ns.length = 1000 ∧ tdg0.terrorist_cells.length = 3 ∧
      out = List.insertionSort byTimestampKey (ns ++ cs ++ ts) ∧
      out.Perm (ns ++ cs ++ ts) ∧
      List.Pairwise (fun a b => a.timestamp ≤ b.timestamp) out :=
  @C1_dataset_composition_and_sorted "http://localhost:5001" gZero tdg0 gInit
    rfl 2880 (by norm_num) (by norm_num) gZero

/-- C9: `generate_dataset` orders records by comparison of the raw ISO-8601
timestamp strings (the stored `timestamp` field, `isoformat` of the minute
count): in the returned dataset the timestamp strings are non-decreasing
under string comparison. -/
theorem C9_sorted_by_raw_timestamp_string {u : String} {g0 : Gen}
    {t : TestDataGenerator} {g1 : Gen}
    (hinit : TestDataGenerator.init u g0 = some (t, g1))
    (now : Int) (g : Gen) :
    ∃ ms g', t.generate_dataset now g = some (ms, g') ∧
      List.Pairwise
        (fun a b => isoformat a.timestamp ≤ isoformat b.timestamp) ms := by
  obtain ⟨ns, cs, ts, g2, g3, g4, -, -, -, hds, -, -⟩ :=
    generate_dataset_spec hinit now g
  refine ⟨_, _, hds, ?_⟩
  have hsorted : List.Pairwise byTimestampKey
      (List.insertionSort byTimestampKey (ns ++ cs ++ ts)) :=
    List.sorted_insertionSort byTimestampKey (ns ++ cs ++ ts)
  exact hsorted.imp (fun h => h)

/-- C9 witness. -/
theorem C9_sorted_by_raw_timestamp_string_witness :
    ∃ ms g', tdg0.generate_dataset 0 gZero = some (ms, g') ∧
      List.Pairwise
        (fun a b => isoformat a.timestamp ≤ isoformat b.timestamp) ms :=
  @C9_sorted_by_raw_timestamp_string "http://localhost:5001" gZero tdg0 gInit
    rfl 0 gZero

/-- C3: for every cell defined at construction,
`generate_cell_movement_pattern` returns `2 × 5 × Σ(devices per member)`
records (5 = the cell's fixed location count), and every `location_id` in
the output belongs to that cell's fixed 5-location set. -/
theorem C3_cell_pattern_length_and_locations {u : String} {g0 : Gen}
    {t : TestDataGenerator} {g1 : Gen}
    (hinit : TestDataGenerator.init u g0 = some (t, g1))
    {cell : List String} (hcell : cell ∈ t.terrorist_cells)
    (now : Int) (g : Gen) :
    ∃ locations assignment g2 ms g',
      lookupCell t.cell_locations cell = some locations ∧
      locations.length = 5 ∧
      assignDevices t.device_ids cell (randint 0 48 g).2 =
        some (assignment, g2) ∧
      assignment.map Prod.fst = cell ∧
      t.generate_cell_movement_pattern cell now g = some (ms, g') ∧
      ms.length = 2 * 5 * sumDevices assignment ∧
      ∀ m ∈ ms, m.location_id ∈ locations := by
  obtain ⟨hd50, -, -, -, -, hkeys, hvals⟩ := init_facts hinit
  have hmemk : cell ∈ t.cell_locations.map Prod.fst := hkeys ▸ hcell
  obtain ⟨locations, hL, hmemp⟩ := lookup_some_of_mem_keys hmemk
  have hloc5 : locations.length = 5 := (hvals (cell, locations) hmemp).1
  obtain ⟨assignment, g2, ms, g', ha, heq, hfst, hlen, hmem⟩ :=
    gcmp_spec hL (by omega) now g
  refine ⟨locations, assignment, g2, ms, g', hL, hloc5, ha, hfst, heq, ?_, ?_⟩
  · rw [hlen, hloc5]
  · exact fun m hm => (hmem m hm).1

/-- C3 witness: the first constructed cell of a concrete generator. -/
theorem C3_cell_pattern_length_and_locations_witness :
    ∃ locations assignment g2 ms g',
      lookupCell tdg0.cell_locations (tdg0.terrorist_cells.getD 0 []) =
        some locations ∧
      locations.length = 5 ∧
      assignDevices tdg0.device_ids (tdg0.terrorist_cells.getD 0 [])
        (randint 0 48 gInit).2 = some (assignment, g2) ∧
      assignment.map Prod.fst = tdg0.terrorist_cells.getD 0 [] ∧
      tdg0.generate_cell_movement_pattern (tdg0.terrorist_cells.getD 0 [])
        0 gInit = some (ms, g') ∧
      ms.length = 2 * 5 * sumDevices assignment ∧
      ∀ m ∈ ms, m.location_id ∈ locations :=
  @C3_cell_pattern_length_and_locations "http://localhost:5001" gZero tdg0
    gInit rfl (tdg0.terrorist_cells.getD 0 []) (by decide) 0 gInit

/-- C8: `generate_cell_movement_pattern` succeeds exactly for the cells
built at construction: for any other argument the location lookup fails
(`KeyError`, modelled as `none`) before any record is produced, and for a
constructed cell the failure branch is unreachable. -/
theorem C8_cell_pattern_partiality {u : String} {g0 : Gen}
    {t : TestDataGenerator} {g1 : Gen}
    (hinit : TestDataGenerator.init u g0 = some (t, g1)) :
    t.terrorist_cells.length = 3 ∧
    (∀ cell, cell ∉ t.terrorist_cells →
      (lookupCell t.cell_locations cell = none ∧
        ∀ now g, t.generate_cell_movement_pattern cell now g = none)) ∧
    (∀ cell ∈ t.terrorist_cells, ∀ now g,
      ∃ r, t.generate_cell_movement_pattern cell now g = some r) := by
  obtain ⟨hd50, -, -, hc3, -, hkeys, hvals⟩ := init_facts hinit
  refine ⟨hc3, ?_, ?_⟩
  · intro cell hno
    have : cell ∉ t.cell_locations.map Prod.fst := hkeys ▸ hno
    have hnone := lookup_none_of_not_mem_keys this
    exact ⟨hnone, fun now g => gcmp_none hnone now g⟩
  · intro cell hcell now g
    have hmemk : cell ∈ t.cell_locations.map Prod.fst := hkeys ▸ hcell
    obtain ⟨locations, hL, -⟩ := lookup_some_of_mem_keys hmemk
    obtain ⟨-, -, ms, g', -, heq, -, -, -⟩ := gcmp_spec hL (by omega) now g
    exact ⟨(ms, g'), heq⟩

/-- C8 witness. -/
theorem C8_cell_pattern_partiality_witness :
    tdg0.terrorist_cells.length = 3 ∧
    (∀ cell, cell ∉ tdg0.terrorist_cells →
      (lookupCell tdg0.cell_locations cell = none ∧
        ∀ now g, tdg0.generate_cell_movement_pattern cell now g = none)) ∧
    (∀ cell ∈ tdg0.terrorist_cells, ∀ now g,
      ∃ r, tdg0.generate_cell_movement_pattern cell now g = some r) :=
  @C8_cell_pattern_partiality "http://localhost:5001" gZero tdg0 gInit rfl

/-- C4: every `generate_device_transfer_pattern` run returns `2 × cell size`
records (10 for the 5-member cells); all share one device id; record pairs
alternate owners from member `j` to member `(j + 1) mod size` in cell
order; both records of a pair carry the same transfer location from the
chosen cell's location set, `movement_type = "walking"` and confidence
exactly `0.9`. -/
theorem C4_transfer_pattern_shape {u : String} {g0 : Gen}
    {t : TestDataGenerator} {g1 : Gen}
    (hinit : TestDataGenerator.init u g0 = some (t, g1))
    (now : Int) (g : Gen) :
    ∃ cell locations d ms g',
      cell ∈ t.terrorist_cells ∧ cell.length = 5 ∧
      lookupCell t.cell_locations cell = some locations ∧
      t.generate_device_transfer_pattern now g = some (ms, g') ∧
      ms.length = 2 * cell.length ∧
      (∀ m ∈ ms, m.device_id = d ∧ m.movement_type = "walking" ∧
        m.confidence_level = 9/10) ∧
      ∀ j, j < cell.length →
        (ms[2*j]?).map Movement.owner_id = cell[j]? ∧
        (ms[2*j+1]?).map Movement.owner_id = cell[(j + 1) % cell.length]? ∧
        (ms[2*j]?).map Movement.location_id =
          (ms[2*j+1]?).map Movement.location_id ∧
        ∃ loc, (ms[2*j]?).map Movement.location_id = some loc ∧
          loc ∈ locations := by
  obtain ⟨hd50, -, -, -, h5, hkeys, hvals⟩ := init_facts hinit
  have hd : t.device_ids ≠ [] := by
    intro he
    rw [he] at hd50
    simp at hd50
  have hcne : t.terrorist_cells ≠ [] := by
    intro he
    obtain ⟨-, -, -, hc3, -, -, -⟩ := init_facts hinit
    rw [he] at hc3
    simp at hc3
  have hkeysne : ∀ c ∈ t.terrorist_cells,
      ∃ locs, lookupCell t.cell_locations c = some locs ∧ locs ≠ [] := by
    intro c hc
    have : c ∈ t.cell_locations.map Prod.fst := hkeys ▸ hc
    obtain ⟨v, hv, hm⟩ := lookup_some_of_mem_keys this
    refine ⟨v, hv, ?_⟩
    intro he
    have := (hvals (c, v) hm).1
    rw [he] at this
    simp at this
  obtain ⟨cell, locations, d, ms, g', hcm, hL, -, heq, hlen, hmem, hidx⟩ :=
    gdtp_spec now g hcne hkeysne hd
  refine ⟨cell, locations, d, ms, g', hcm, h5 cell hcm, hL, heq, hlen,
    fun m hm => ⟨(hmem m hm).1, (hmem m hm).2.1, (hmem m hm).2.2.1⟩, ?_⟩
  intro j hj
  obtain ⟨e1, e2, e3⟩ := hidx j hj
  have h2j : 2 * j < ms.length := by omega
  refine ⟨e1, e2, e3, ms[2*j].location_id, ?_, ?_⟩
  · rw [List.getElem?_eq_getElem h2j]
    rfl
  · exact ((hmem ms[2*j] (List.getElem_mem h2j)).2.2.2).1

/-- C4 witness. -/
theorem C4_transfer_pattern_shape_witness :
    ∃ cell locations d ms g',
      cell ∈ tdg0.terrorist_cells ∧ cell.length = 5 ∧
      lookupCell tdg0.cell_locations cell = some locations ∧
      tdg0.generate_device_transfer_pattern 0 gInit = some (ms, g') ∧
      ms.length = 2 * cell.length ∧
      (∀ m ∈ ms, m.device_id = d ∧ m.movement_type = "walking" ∧
        m.confidence_level = 9/10) ∧
      ∀ j, j < cell.length →
        (ms[2*j]?).map Movement.owner_id = cell[j]? ∧
        (ms[2*j+1]?).map Movement.owner_id = cell[(j + 1) % cell.length]? ∧
        (ms[2*j]?).map Movement.location_id =
          (ms[2*j+1]?).map Movement.location_id ∧
        ∃ loc, (ms[2*j]?).map Movement.location_id = some loc ∧
          loc ∈ locations :=
  @C4_transfer_pattern_shape "http://localhost:5001" gZero tdg0 gInit rfl
    0 gInit

/-- C5: confidence ranges per generator — normal movements in
`[0.70, 1.00]`, cell-pattern records in `[0.80, 1.00]`, transfer records
exactly `0.90`. -/
theorem C5_confidence_ranges {u : String} {g0 : Gen}
    {t : TestDataGenerator} {g1 : Gen}
    (hinit : TestDataGenerator.init u g0 = some (t, g1)) :
    (∀ now g m g', t.generate_normal_movement now g = some (m, g') →
      7/10 ≤ m.confidence_level ∧ m.confidence_level ≤ 1) ∧
    (∀ cell now g ms g',
      t.generate_cell_movement_pattern cell now g = some (ms, g') →
      ∀ m ∈ ms, 8/10 ≤ m.confidence_level ∧ m.confidence_level ≤ 1) ∧
    (∀ now g ms g',
      t.generate_device_transfer_pattern now g = some (ms, g') →
      ∀ m ∈ ms, m.confidence_level = 9/10) := by
  obtain ⟨hd50, how, hloc, -, h5, hkeys, hvals⟩ := init_facts hinit
  have hd : t.device_ids ≠ [] := by
    intro he
    rw [he] at hd50
    simp at hd50
  refine ⟨?_, ?_, ?_⟩
  · intro now g m g' h
    obtain ⟨m0, g0', heq, -, -, -, -, -, -, hc1, hc2⟩ :=
      generate_normal_movement_spec t now g hd how hloc
    rw [h] at heq
    obtain ⟨rfl, rfl⟩ := Prod.ext_iff.mp (Option.some.inj heq)
    exact ⟨hc1, hc2⟩
  · intro cell now g ms g' h
    obtain ⟨locs, asg, g2, e1, e2, e3, e4, hmem⟩ := gcmp_eq_some (by omega) h
    exact fun m hm => ⟨(hmem m hm).2.1, (hmem m hm).2.2.1⟩
  · intro now g ms g' h
    have hcne : t.terrorist_cells ≠ [] := by
      intro he
      obtain ⟨-, -, -, hc3, -, -, -⟩ := init_facts hinit
      rw [he] at hc3
      simp at hc3
    have hkeysne : ∀ c ∈ t.terrorist_cells,
        ∃ locs, lookupCell t.cell_locations c = some locs ∧ locs ≠ [] := by
      intro c hc
      have : c ∈ t.cell_locations.map Prod.fst := hkeys ▸ hc
      obtain ⟨v, hv, hm⟩ := lookup_some_of_mem_keys this
      refine ⟨v, hv, ?_⟩
      intro he
      have := (hvals (c, v) hm).1
      rw [he] at this
      simp at this
    obtain ⟨cl, locs, dv, e1, e2, e3, e4, hmem, e5⟩ :=
      gdtp_eq_some hcne hkeysne hd h
    exact fun m hm => (hmem m hm).2.2.1

/-- C5 witness: a concrete successful run of each generator. -/
theorem C5_confidence_ranges_witness :
    ∃ m g' ms2 g2 ms3 g3,
      tdg0.generate_normal_movement 0 gInit = some (m, g') ∧
      (7/10 ≤ m.confidence_level ∧ m.confidence_level ≤ 1) ∧
      tdg0.generate_cell_movement_pattern (tdg0.terrorist_cells.getD 0 [])
        0 gInit = some (ms2, g2) ∧
      (∀ x ∈ ms2, 8/10 ≤ x.confidence_level ∧ x.confidence_level ≤ 1) ∧
      tdg0.generate_device_transfer_pattern 0 gInit = some (ms3, g3) ∧
      ∀ x ∈ ms3, x.confidence_level = 9/10 := by
  obtain ⟨h1, h2, h3⟩ :=
    @C5_confidence_ranges "http://localhost:5001" gZero tdg0 gInit rfl
  refine ⟨((tdg0.generate_normal_movement 0 gInit).getD (mv0, gZero)).1,
    ((tdg0.generate_normal_movement 0 gInit).getD (mv0, gZero)).2,
    ((tdg0.generate_cell_movement_pattern (tdg0.terrorist_cells.getD 0 [])
      0 gInit).getD ([], gZero)).1,
    ((tdg0.generate_cell_movement_pattern (tdg0.terrorist_cells.getD 0 [])
      0 gInit).getD ([], gZero)).2,
    ((tdg0.generate_device_transfer_pattern 0 gInit).getD ([], gZero)).1,
    ((tdg0.generate_device_transfer_pattern 0 gInit).getD ([], gZero)).2,
    rfl, h1 0 gInit _ _ rfl, rfl,
    h2 (tdg0.terrorist_cells.getD 0 []) 0 gInit _ _ rfl, rfl,
    h3 0 gInit _ _ rfl⟩

/-- C7: constructing the generator twice from the same random state yields
identical cell partitions and identical cell-to-location mappings (and both
constructions succeed). -/
theorem C7_same_seed_same_cells (u : String) (g g' : Gen) (hseed : g = g') :
    ∃ t1 r1 t2 r2,
      TestDataGenerator.init u g = some (t1, r1) ∧
      TestDataGenerator.init u g' = some (t2, r2) ∧
      t1.terrorist_cells = t2.terrorist_cells ∧
      t1.cell_locations = t2.cell_locations := by
  subst hseed
  obtain ⟨t, r, h⟩ := init_some u g
  exact ⟨t, r, t, r, h, h, rfl, rfl⟩

/-- C7 witness. -/
theorem C7_same_seed_same_cells_witness :
    ∃ t1 r1 t2 r2,
      TestDataGenerator.init "http://localhost:5001" gZero = some (t1, r1) ∧
      TestDataGenerator.init "http://localhost:5001" gZero = some (t2, r2) ∧
      t1.terrorist_cells = t2.terrorist_cells ∧
      t1.cell_locations = t2.cell_locations :=
  C7_same_seed_same_cells "http://localhost:5001" gZero gZero rfl

/-- C2: the Replay Client returns exactly N result entries in input order —
the j-th entry is for the j-th movement and is either a numeric-status
entry with a response body or an error entry with a message; every
per-record failure becomes such an entry (the transport's `exn` outcome),
so the function is total. -/
theorem C2_replay_results_shape (t : TestDataGenerator) (tr : Transport)
    (ms : List Movement) (delay : ℚ) :
    (t.send_movements tr ms delay).1.length = ms.length ∧
    ∀ j, ∀ hj : j < ms.length,
      ∃ entry, (t.send_movements tr ms delay).1[j]? = some entry ∧
        ((∃ s b, entry = ResultEntry.ok ms[j] s b) ∨
         (∃ e, entry = ResultEntry.err ms[j] e)) := by
  unfold TestDataGenerator.send_movements
  exact send_movements_loop_results
    (tr (t.base_url ++ "/api/v1/movements")) ms.length delay ms 1

/-- C2 witness: one success and one failure, both converted to entries. -/
theorem C2_replay_results_shape_witness :
    ((tdg0.send_movements failTransport [mv0] (1/10)).1.length = 1 ∧
      ∃ entry, (tdg0.send_movements failTransport [mv0] (1/10)).1[0]? =
        some entry ∧
        ((∃ s b, entry = ResultEntry.ok mv0 s b) ∨
         (∃ e, entry = ResultEntry.err mv0 e))) ∧
    ((tdg0.send_movements okTransport [mv0] (1/10)).1.length = 1 ∧
      ∃ entry, (tdg0.send_movements okTransport [mv0] (1/10)).1[0]? =
        some entry ∧
        ((∃ s b, entry = ResultEntry.ok mv0 s b) ∨
         (∃ e, entry = ResultEntry.err mv0 e))) :=
  ⟨⟨(C2_replay_results_shape tdg0 failTransport [mv0] (1/10)).1,
    (C2_replay_results_shape tdg0 failTransport [mv0] (1/10)).2 0
      (by norm_num)⟩,
   ⟨(C2_replay_results_shape tdg0 okTransport [mv0] (1/10)).1,
    (C2_replay_results_shape tdg0 okTransport [mv0] (1/10)).2 0
      (by norm_num)⟩⟩

/-- C6 counterexample: with a transport that fails every request, 100
records are processed (100 result entries are returned) yet the trace
contains no sleep at all and no progress notice — the sleep and the
progress print sit inside the `try` block, so they are skipped for failed
records, contrary to the claim that the client sleeps after every record
(success or failure) and emits a notice after every 100th record. -/
theorem C6_counterexample :
    (tdg0.send_movements failTransport (List.replicate 100 mv0) (1/10)).1.length
        = 100 ∧
    (tdg0.send_movements failTransport
        (List.replicate 100 mv0) (1/10)).2.countP Event.isSleep = 0 ∧
    ∀ k tt, Event.progress k tt ∉
      (tdg0.send_movements failTransport (List.replicate 100 mv0) (1/10)).2 := by
  refine ⟨by decide, by decide, ?_⟩
  intro k tt hmem
  unfold TestDataGenerator.send_movements at hmem
  obtain ⟨-, -, j, hj, -, hok⟩ :=
    (send_movements_loop_progress _ _ _ _ 1 k tt).mp hmem
  simp [failTransport, PostOutcome.isOk] at hok

/-- C6 amended: after every successfully processed record the client sleeps
for the fixed delay before the next request (sleep count = success count,
in particular no sleep after a failed record), and a progress notice for
index `k` is emitted exactly when `k` is a multiple of 100 and the `k`-th
(1-based) record was processed successfully. -/
theorem C6_sleep_and_progress_only_on_success (t : TestDataGenerator)
    (tr : Transport) (ms : List Movement) (delay : ℚ) :
    ((t.send_movements tr ms delay).2.countP Event.isSleep =
      (t.send_movements tr ms delay).1.countP ResultEntry.isOk) ∧
    ∀ k tt, (Event.progress k tt ∈ (t.send_movements tr ms delay).2 ↔
      (tt = ms.length ∧ k % 100 = 0 ∧ ∃ j, ∃ hj : j < ms.length, k = 1 + j ∧
        (tr (t.base_url ++ "/api/v1/movements") ms[j]).isOk = true)) := by
  unfold TestDataGenerator.send_movements
  exact ⟨send_movements_loop_sleep_count _ ms.length delay ms 1,
    fun k tt => send_movements_loop_progress _ ms.length delay ms 1 k tt⟩

/-- C10: device assignment in the cell pattern samples independently per
member from the full pool, so for some random outcome the same device id is
assigned to two different members and emits records under two different
owner ids within one cell pattern (here: the all-zeros stream assigns
`D00000` to every member). -/
theorem C10_device_shared_across_members :
    ∃ (u : String) (g0 g : Gen) (now : Int) (t : TestDataGenerator)
      (g1 : Gen) (cell : List String) (ms : List Movement) (g' : Gen),
      TestDataGenerator.init u g0 = some (t, g1) ∧
      cell ∈ t.terrorist_cells ∧
      t.generate_cell_movement_pattern cell now g = some (ms, g') ∧
      ∃ i j, ∃ hi : i < ms.length, ∃ hj : j < ms.length,
        ms[i].device_id = ms[j].device_id ∧
        ms[i].owner_id ≠ ms[j].owner_id := by
  refine ⟨"http://localhost:5001", gZero, gInit, 0, tdg0, gInit,
    tdg0.terrorist_cells.getD 0 [],
    ((tdg0.generate_cell_movement_pattern (tdg0.terrorist_cells.getD 0 [])
      0 gInit).getD ([], gZero)).1,
    ((tdg0.generate_cell_movement_pattern (tdg0.terrorist_cells.getD 0 [])
      0 gInit).getD ([], gZero)).2,
    rfl, by decide, rfl, 0, 2, by decide, by decide, by decide, by decide⟩

end DeviceMovement
